import Mathlib

/-!
Verification of the streaming core of `tg_streamer_bot`.

The definitions below are a shallow embedding of the Python sources:
  - `app/deliver/context.py`  (class `AVContext`)
  - `app/deliver/streamer.py` (classes `AVFrameGenerator`, `AVStreamer`)
  - `app/deliver/player.py`   (class `AVPlayer`)
  - `app/deliver/schemas.py`  (`StreamerState.is_cached`)
  - `app/deliver/constants.py`

Machine integers of the source are modelled with `Nat`/`Int` (Python ints are
unbounded), `fractions.Fraction` with `ℚ`, fallible paths with `Option`.
FFmpeg filter graphs are external stateful objects; the frames a graph emits
when pulled are passed to the embedded functions as explicit lists, so every
theorem quantifies over all possible graph outputs.
-/

namespace TgStreamer

/-- A decoded/filtered video frame.  The context overwrites its `pts`, so no
field is needed beyond its existence. -/
structure VFrame where
  deriving Repr, DecidableEq, Inhabited

/-- A decoded/filtered audio frame; `samples` is `frame.samples` in the source. -/
structure AFrame where
  samples : Nat
  deriving Repr, DecidableEq, Inhabited

/-- State of `AVContext` (context.py).  `video_graph`/`audio_graph` record
whether a filter graph is installed (`Graph | None` in the source).
`video_log`/`audio_log` record, in order, every argument handed to
`VideoStream.encode` / `AudioStream.encode`: `some pts` for a frame stamped
with that PTS (audio entries also carry the frame's sample count), `none` for
an encoder end-of-stream flush. -/
structure AVCtx where
  video_graph : Bool
  audio_graph : Bool
  offset_video_pts : Nat
  offset_audio_pts : Nat
  video_log : List (Option Nat)
  audio_log : List (Option (Nat × Nat))
  deriving Repr, DecidableEq

/-- `AVContext.__init__`: no graphs, both PTS offsets zero. -/
def initCtx : AVCtx :=
  { video_graph := false, audio_graph := false,
    offset_video_pts := 0, offset_audio_pts := 0,
    video_log := [], audio_log := [] }

/-- `AVContext._encode_video`: if the frame is present, advance
`offset_video_pts` by one and stamp the frame with the new offset; then hand
the frame (or `None`) to the video encoder and mux its packets. -/
def encode_video_inner (s : AVCtx) (frame : Option VFrame) : AVCtx :=
  match frame with
  | some _ =>
    { s with offset_video_pts := s.offset_video_pts + 1,
             video_log := s.video_log ++ [some (s.offset_video_pts + 1)] }
  | none => { s with video_log := s.video_log ++ [none] }

/-- `AVContext._encode_audio`: if the frame is present, advance
`offset_audio_pts` by `frame.samples` and stamp the frame with the new
offset; then hand the frame (or `None`) to the audio encoder. -/
def encode_audio_inner (s : AVCtx) (frame : Option AFrame) : AVCtx :=
  match frame with
  | some f =>
    { s with offset_audio_pts := s.offset_audio_pts + f.samples,
             audio_log := s.audio_log ++ [some (s.offset_audio_pts + f.samples, f.samples)] }
  | none => { s with audio_log := s.audio_log ++ [none] }

/-- `AVContext.encode_video`.  `filtered` is the list of frames
`iter_filtered_frames(self.video_graph, frame)` yields (an input of the
model, since it depends on the external graph state). -/
def AVCtx.encode_video (s : AVCtx) (frame : Option VFrame) (apply_filters : Bool)
    (filtered : List VFrame) : AVCtx :=
  if s.video_graph && apply_filters then
    filtered.foldl (fun st fr => encode_video_inner st (some fr)) s
  else
    match frame with
    | some f => encode_video_inner s (some f)
    | none => s

/-- `AVContext.encode_audio`, symmetric to `AVCtx.encode_video`. -/
def AVCtx.encode_audio (s : AVCtx) (frame : Option AFrame) (apply_filters : Bool)
    (filtered : List AFrame) : AVCtx :=
  if s.audio_graph && apply_filters then
    filtered.foldl (fun st fr => encode_audio_inner st (some fr)) s
  else
    match frame with
    | some f => encode_audio_inner s (some f)
    | none => s

/-- `AVContext.create_graph` on a video stream. -/
def AVCtx.create_video_graph (s : AVCtx) : AVCtx := { s with video_graph := true }

/-- `AVContext.create_graph` on an audio stream. -/
def AVCtx.create_audio_graph (s : AVCtx) : AVCtx := { s with audio_graph := true }

/-- `AVContext.flush`: for each installed graph (audio first, as in the
source), push end-of-stream, encode every drained frame, release the graph.
`fa`/`fv` are the frames the graphs emit while draining. -/
def AVCtx.flush (s : AVCtx) (fa : List AFrame) (fv : List VFrame) : AVCtx :=
  let s1 := if s.audio_graph then
    { s.encode_audio none true fa with audio_graph := false } else s
  if s1.video_graph then
    { s1.encode_video none true fv with video_graph := false } else s1

/-- `AVContext.close`: flush, then send `None` straight to both encoders. -/
def AVCtx.close (s : AVCtx) (fa : List AFrame) (fv : List VFrame) : AVCtx :=
  let s1 := s.flush fa fv
  encode_video_inner (encode_audio_inner s1 none) none

/-- The PTS values of the video frames handed to the video encoder. -/
def videoPts (s : AVCtx) : List Nat := s.video_log.filterMap id

/-- The `(pts, samples)` pairs of the audio frames handed to the audio encoder. -/
def audioEntries (s : AVCtx) : List (Nat × Nat) := s.audio_log.filterMap id

/-- `audioOk prev l` holds when each entry's PTS is the previous PTS plus the
entry's sample count, starting from `prev`. -/
def audioOk : Nat → List (Nat × Nat) → Bool
  | _, [] => true
  | prev, e :: rest => (e.1 == prev + e.2) && audioOk e.1 rest

/-- PTS of the last entry of `l`, or `prev` when `l` is empty. -/
def lastPts (prev : Nat) : List (Nat × Nat) → Nat
  | [] => prev
  | e :: rest => lastPts e.1 rest

/-- The audio-log entries produced by draining frames `fa` when the audio
offset starts at `start`. -/
def audioDrain (start : Nat) : List AFrame → List (Nat × Nat)
  | [] => []
  | f :: rest => (start + f.samples, f.samples) :: audioDrain (start + f.samples) rest

/-- Total sample count of a list of audio frames. -/
def sumSamples (l : List AFrame) : Nat := (l.map AFrame.samples).sum

lemma audio_foldl_eq (fa : List AFrame) : ∀ (s : AVCtx),
    fa.foldl (fun st fr => encode_audio_inner st (some fr)) s =
    { s with offset_audio_pts := s.offset_audio_pts + sumSamples fa,
             audio_log := s.audio_log ++ (audioDrain s.offset_audio_pts fa).map some } := by
  induction fa with
  | nil => intro s; simp [sumSamples, audioDrain]
  | cons f rest ih =>
    intro s
    simp only [List.foldl_cons]
    rw [ih]
    simp [encode_audio_inner, sumSamples, audioDrain, Nat.add_assoc]

lemma video_foldl_eq (fv : List VFrame) : ∀ (s : AVCtx),
    fv.foldl (fun st fr => encode_video_inner st (some fr)) s =
    { s with offset_video_pts := s.offset_video_pts + fv.length,
             video_log := s.video_log ++
               (List.range' (s.offset_video_pts + 1) fv.length).map some } := by
  induction fv with
  | nil => intro s; simp
  | cons f rest ih =>
    intro s
    simp only [List.foldl_cons]
    rw [ih]
    simp [encode_video_inner, List.range'_succ, Nat.add_assoc]
    omega

lemma audioOk_append (l1 l2 : List (Nat × Nat)) : ∀ prev,
    audioOk prev (l1 ++ l2) = (audioOk prev l1 && audioOk (lastPts prev l1) l2) := by
  induction l1 with
  | nil => intro prev; simp [audioOk, lastPts]
  | cons e rest ih =>
    intro prev
    simp [audioOk, lastPts, ih, Bool.and_assoc]

lemma lastPts_append (l1 l2 : List (Nat × Nat)) : ∀ prev,
    lastPts prev (l1 ++ l2) = lastPts (lastPts prev l1) l2 := by
  induction l1 with
  | nil => intro prev; rfl
  | cons e rest ih => intro prev; simp [lastPts, ih]

lemma audioOk_drain (fa : List AFrame) : ∀ prev, audioOk prev (audioDrain prev fa) = true := by
  induction fa with
  | nil => intro prev; rfl
  | cons f rest ih => intro prev; simp [audioDrain, audioOk, ih]

lemma lastPts_drain (fa : List AFrame) : ∀ prev,
    lastPts prev (audioDrain prev fa) = prev + sumSamples fa := by
  induction fa with
  | nil => intro prev; simp [audioDrain, lastPts, sumSamples]
  | cons f rest ih =>
    intro prev
    simp [audioDrain, lastPts, ih, sumSamples, Nat.add_assoc]

lemma drain_samples (fa : List AFrame) : ∀ prev e, e ∈ audioDrain prev fa →
    ∃ f ∈ fa, e.2 = f.samples := by
  induction fa with
  | nil => intro prev e he; simp [audioDrain] at he
  | cons f rest ih =>
    intro prev e he
    simp only [audioDrain, List.mem_cons] at he
    rcases he with h | h
    · exact ⟨f, List.mem_cons_self f rest, by simp [h]⟩
    · obtain ⟨g, hg, hgs⟩ := ih _ e h
      exact ⟨g, List.mem_cons_of_mem f hg, hgs⟩

/-- One public operation on an `AVContext` over its lifetime.  The frame lists
on the encode/flush/close operations are the frames the (external) filter
graphs emit when pulled there. -/
inductive AVOp where
  | encVideo (frame : Option VFrame) (apply_filters : Bool) (filtered : List VFrame)
  | encAudio (frame : Option AFrame) (apply_filters : Bool) (filtered : List AFrame)
  | mkVideoGraph
  | mkAudioGraph
  | flushGraphs (fa : List AFrame) (fv : List VFrame)
  | closeCtx (fa : List AFrame) (fv : List VFrame)
  deriving Repr, DecidableEq

/-- Dispatch one operation against the context. -/
def AVCtx.step (s : AVCtx) : AVOp → AVCtx
  | .encVideo f a fl => s.encode_video f a fl
  | .encAudio f a fl => s.encode_audio f a fl
  | .mkVideoGraph => s.create_video_graph
  | .mkAudioGraph => s.create_audio_graph
  | .flushGraphs fa fv => s.flush fa fv
  | .closeCtx fa fv => s.close fa fv

/-- Run a whole lifetime of operations from a context state. -/
def AVCtx.run (s : AVCtx) (ops : List AVOp) : AVCtx := ops.foldl AVCtx.step s

/-- Every audio frame an operation carries has `samples ≥ 1`. -/
def opSamplesPos : AVOp → Bool
  | .encAudio frame _ filtered =>
      (match frame with | some f => decide (1 ≤ f.samples) | none => true)
        && filtered.all (fun f => decide (1 ≤ f.samples))
  | .flushGraphs fa _ => fa.all (fun f => decide (1 ≤ f.samples))
  | .closeCtx fa _ => fa.all (fun f => decide (1 ≤ f.samples))
  | _ => true

/-- Bookkeeping invariant of the context: the video PTS handed out so far are
exactly `1, 2, …, offset_video_pts`, the audio entries chain correctly from
`0`, and the last audio PTS equals `offset_audio_pts`. -/
def CtxInv (s : AVCtx) : Prop :=
  videoPts s = List.range' 1 s.offset_video_pts ∧
  audioOk 0 (audioEntries s) = true ∧
  lastPts 0 (audioEntries s) = s.offset_audio_pts

/-- All logged audio frames had at least one sample. -/
def CtxPos (s : AVCtx) : Prop := ∀ e ∈ audioEntries s, 1 ≤ e.2

lemma ctxInv_init : CtxInv initCtx := by
  refine ⟨rfl, rfl, rfl⟩

lemma ctxPos_init : CtxPos initCtx := by
  intro e he
  simp [audioEntries, initCtx] at he

lemma range'_one_append (o n : Nat) :
    List.range' 1 o ++ List.range' (o + 1) n = List.range' 1 (o + n) := by
  have := List.range'_append 1 o n 1
  simpa [Nat.add_comm] using this

lemma videoPts_append_some (s : AVCtx) (l : List (Option Nat)) :
    videoPts { s with video_log := s.video_log ++ l } =
      videoPts s ++ l.filterMap id := by
  simp [videoPts, List.filterMap_append]

lemma ctxInv_video_foldl (s : AVCtx) (h : CtxInv s) (fl : List VFrame) :
    CtxInv (fl.foldl (fun st fr => encode_video_inner st (some fr)) s) := by
  obtain ⟨hv, ha, hl⟩ := h
  rw [video_foldl_eq]
  refine ⟨?_, ?_, ?_⟩
  · simp [videoPts, List.filterMap_append, videoPts] at hv ⊢
    rw [hv]
    simpa [List.filterMap_map] using range'_one_append s.offset_video_pts fl.length
  · simpa [audioEntries] using ha
  · simpa [audioEntries] using hl

lemma ctxInv_audio_foldl (s : AVCtx) (h : CtxInv s) (fl : List AFrame) :
    CtxInv (fl.foldl (fun st fr => encode_audio_inner st (some fr)) s) := by
  obtain ⟨hv, ha, hl⟩ := h
  rw [audio_foldl_eq]
  refine ⟨?_, ?_, ?_⟩
  · simpa [videoPts] using hv
  · simp [audioEntries, List.filterMap_append, List.filterMap_map] at ha ⊢
    rw [audioOk_append]
    simp [audioEntries] at ha hl
    simp [ha, hl, audioOk_drain]
  · simp [audioEntries, List.filterMap_append, List.filterMap_map, lastPts_append] at hl ⊢
    simp [hl, lastPts_drain]

lemma ctxPos_audio_foldl (s : AVCtx) (h : CtxPos s) (fl : List AFrame)
    (hs : ∀ f ∈ fl, 1 ≤ f.samples) :
    CtxPos (fl.foldl (fun st fr => encode_audio_inner st (some fr)) s) := by
  rw [audio_foldl_eq]
  intro e he
  simp [audioEntries, List.filterMap_append, List.filterMap_map] at he
  rcases he with he | he
  · exact h e (by simpa [audioEntries] using he)
  · obtain ⟨f, hf, hfs⟩ := drain_samples fl _ e he
    exact hfs ▸ hs f hf

lemma ctxPos_video_foldl (s : AVCtx) (h : CtxPos s) (fl : List VFrame) :
    CtxPos (fl.foldl (fun st fr => encode_video_inner st (some fr)) s) := by
  rw [video_foldl_eq]
  intro e he
  exact h e (by simpa [audioEntries] using he)

lemma ctxInv_graph_update (s : AVCtx) (b : Bool) :
    CtxInv { s with audio_graph := b } ↔ CtxInv s := Iff.rfl

lemma ctxInv_vgraph_update (s : AVCtx) (b : Bool) :
    CtxInv { s with video_graph := b } ↔ CtxInv s := Iff.rfl

lemma ctxPos_graph_update (s : AVCtx) (b : Bool) :
    CtxPos { s with audio_graph := b } ↔ CtxPos s := Iff.rfl

lemma ctxPos_vgraph_update (s : AVCtx) (b : Bool) :
    CtxPos { s with video_graph := b } ↔ CtxPos s := Iff.rfl

lemma ctxInv_inner_vnone (s : AVCtx) (h : CtxInv s) : CtxInv (encode_video_inner s none) := by
  obtain ⟨hv, ha, hl⟩ := h
  exact ⟨by simpa [videoPts, encode_video_inner, List.filterMap_append] using hv,
    by simpa [audioEntries, encode_video_inner] using ha,
    by simpa [audioEntries, encode_video_inner] using hl⟩

lemma ctxInv_inner_anone (s : AVCtx) (h : CtxInv s) : CtxInv (encode_audio_inner s none) := by
  obtain ⟨hv, ha, hl⟩ := h
  exact ⟨by simpa [videoPts, encode_audio_inner] using hv,
    by simpa [audioEntries, encode_audio_inner, List.filterMap_append] using ha,
    by simpa [audioEntries, encode_audio_inner, List.filterMap_append] using hl⟩

lemma ctxPos_inner_vnone (s : AVCtx) (h : CtxPos s) : CtxPos (encode_video_inner s none) := by
  intro e he
  exact h e (by simpa [audioEntries, encode_video_inner] using he)

lemma ctxPos_inner_anone (s : AVCtx) (h : CtxPos s) : CtxPos (encode_audio_inner s none) := by
  intro e he
  refine h e ?_
  simp only [audioEntries, encode_audio_inner, List.filterMap_append] at he
  simpa [audioEntries] using he

lemma ctxInv_encode_video (s : AVCtx) (h : CtxInv s) (fr : Option VFrame) (af : Bool)
    (fl : List VFrame) : CtxInv (s.encode_video fr af fl) := by
  unfold AVCtx.encode_video
  by_cases hg : (s.video_graph && af) = true
  · simpa [hg] using ctxInv_video_foldl s h fl
  · simp only [Bool.not_eq_true] at hg
    cases fr with
    | some f =>
      simpa [hg] using ctxInv_video_foldl s h [f]
    | none => simpa [hg] using h

lemma ctxInv_encode_audio (s : AVCtx) (h : CtxInv s) (fr : Option AFrame) (af : Bool)
    (fl : List AFrame) : CtxInv (s.encode_audio fr af fl) := by
  unfold AVCtx.encode_audio
  by_cases hg : (s.audio_graph && af) = true
  · simpa [hg] using ctxInv_audio_foldl s h fl
  · simp only [Bool.not_eq_true] at hg
    cases fr with
    | some f =>
      simpa [hg] using ctxInv_audio_foldl s h [f]
    | none => simpa [hg] using h

lemma ctxPos_encode_video (s : AVCtx) (h : CtxPos s) (fr : Option VFrame) (af : Bool)
    (fl : List VFrame) : CtxPos (s.encode_video fr af fl) := by
  unfold AVCtx.encode_video
  by_cases hg : (s.video_graph && af) = true
  · simpa [hg] using ctxPos_video_foldl s h fl
  · simp only [Bool.not_eq_true] at hg
    cases fr with
    | some f => simpa [hg] using ctxPos_video_foldl s h [f]
    | none => simpa [hg] using h

lemma ctxPos_encode_audio (s : AVCtx) (h : CtxPos s) (fr : Option AFrame) (af : Bool)
    (fl : List AFrame) (hfr : ∀ f ∈ fr.toList, 1 ≤ f.samples)
    (hfl : ∀ f ∈ fl, 1 ≤ f.samples) : CtxPos (s.encode_audio fr af fl) := by
  unfold AVCtx.encode_audio
  by_cases hg : (s.audio_graph && af) = true
  · simpa [hg] using ctxPos_audio_foldl s h fl hfl
  · simp only [Bool.not_eq_true] at hg
    cases fr with
    | some f =>
      refine ?_
      have hf : 1 ≤ f.samples := hfr f (by simp)
      simpa [hg] using ctxPos_audio_foldl s h [f] (by simpa using hf)
    | none => simpa [hg] using h

lemma ctxInv_flush (s : AVCtx) (h : CtxInv s) (fa : List AFrame) (fv : List VFrame) :
    CtxInv (s.flush fa fv) := by
  unfold AVCtx.flush
  have h1 : CtxInv (if s.audio_graph then
      { s.encode_audio none true fa with audio_graph := false } else s) := by
    by_cases hg : s.audio_graph
    · simpa [hg, ctxInv_graph_update] using ctxInv_encode_audio s h none true fa
    · simpa [hg] using h
  set s1 := if s.audio_graph then
    { s.encode_audio none true fa with audio_graph := false } else s
  by_cases hg1 : s1.video_graph
  · simpa [hg1, ctxInv_vgraph_update] using ctxInv_encode_video s1 h1 none true fv
  · simpa [hg1] using h1

lemma ctxPos_flush (s : AVCtx) (h : CtxPos s) (fa : List AFrame) (fv : List VFrame)
    (hfa : ∀ f ∈ fa, 1 ≤ f.samples) : CtxPos (s.flush fa fv) := by
  unfold AVCtx.flush
  have h1 : CtxPos (if s.audio_graph then
      { s.encode_audio none true fa with audio_graph := false } else s) := by
    by_cases hg : s.audio_graph
    · simpa [hg, ctxPos_graph_update] using
        ctxPos_encode_audio s h none true fa (by simp) hfa
    · simpa [hg] using h
  set s1 := if s.audio_graph then
    { s.encode_audio none true fa with audio_graph := false } else s
  by_cases hg1 : s1.video_graph
  · simpa [hg1, ctxPos_vgraph_update] using ctxPos_encode_video s1 h1 none true fv
  · simpa [hg1] using h1

lemma ctxInv_step (s : AVCtx) (op : AVOp) (h : CtxInv s) : CtxInv (s.step op) := by
  cases op with
  | encVideo fr af fl => exact ctxInv_encode_video s h fr af fl
  | encAudio fr af fl => exact ctxInv_encode_audio s h fr af fl
  | mkVideoGraph => exact (ctxInv_vgraph_update s true).2 h
  | mkAudioGraph => exact (ctxInv_graph_update s true).2 h
  | flushGraphs fa fv => exact ctxInv_flush s h fa fv
  | closeCtx fa fv =>
    exact ctxInv_inner_vnone _ (ctxInv_inner_anone _ (ctxInv_flush s h fa fv))

lemma ctxPos_step (s : AVCtx) (op : AVOp) (h : CtxPos s)
    (hop : opSamplesPos op = true) : CtxPos (s.step op) := by
  cases op with
  | encVideo fr af fl => exact ctxPos_encode_video s h fr af fl
  | encAudio fr af fl =>
    simp only [opSamplesPos, Bool.and_eq_true, List.all_eq_true, decide_eq_true_eq] at hop
    refine ctxPos_encode_audio s h fr af fl ?_ hop.2
    intro f hf
    cases fr with
    | some g => simp at hf; exact hf ▸ (by simpa using hop.1)
    | none => simp at hf
  | mkVideoGraph => exact (ctxPos_vgraph_update s true).2 h
  | mkAudioGraph => exact (ctxPos_graph_update s true).2 h
  | flushGraphs fa fv =>
    simp only [opSamplesPos, List.all_eq_true, decide_eq_true_eq] at hop
    exact ctxPos_flush s h fa fv hop
  | closeCtx fa fv =>
    simp only [opSamplesPos, List.all_eq_true, decide_eq_true_eq] at hop
    exact ctxPos_inner_vnone _ (ctxPos_inner_anone _ (ctxPos_flush s h fa fv hop))

lemma ctxInvPos_run (ops : List AVOp) : ∀ s : AVCtx, CtxInv s → CtxPos s →
    ops.all opSamplesPos = true → CtxInv (s.run ops) ∧ CtxPos (s.run ops) := by
  induction ops with
  | nil => intro s h1 h2 _; exact ⟨h1, h2⟩
  | cons op rest ih =>
    intro s h1 h2 hall
    simp only [List.all_cons, Bool.and_eq_true] at hall
    have := ih (s.step op) (ctxInv_step s op h1) (ctxPos_step s op h2 hall.1) hall.2
    simpa [AVCtx.run, List.foldl_cons] using this

lemma audioOk_chain (l : List (Nat × Nat)) : ∀ prev, audioOk prev l = true →
    (∀ e ∈ l, 1 ≤ e.2) →
    List.Chain' (· < ·) (l.map Prod.fst) ∧ ∀ e ∈ l, prev < e.1 := by
  induction l with
  | nil => intro prev _ _; exact ⟨List.chain'_nil, by simp⟩
  | cons e rest ih =>
    intro prev hok hpos
    simp only [audioOk, Bool.and_eq_true, beq_iff_eq] at hok
    obtain ⟨hche, hall⟩ := ih e.1 hok.2 (fun x hx => hpos x (List.mem_cons_of_mem e hx))
    have he1 : prev < e.1 := by
      have := hpos e (List.mem_cons_self e rest)
      omega
    constructor
    · rw [List.map_cons, List.chain'_cons']
      refine ⟨?_, hche⟩
      intro y hy
      rcases rest with _ | ⟨e2, rest2⟩
      · simp at hy
      · simp only [List.map_cons, List.head?_cons, Option.mem_def, Option.some.injEq] at hy
        have := hall e2 (List.mem_cons_self e2 rest2)
        omega
    · intro x hx
      rcases List.mem_cons.1 hx with hx | hx
      · rw [hx]; exact he1
      · have := hall x hx
        omega

/-- A concrete context lifetime used to witness the C1 theorem. -/
def c1ops : List AVOp :=
  [AVOp.mkVideoGraph, AVOp.mkAudioGraph,
   AVOp.encVideo (some ⟨⟩) true [⟨⟩, ⟨⟩],
   AVOp.encAudio (some ⟨1024⟩) true [⟨1024⟩, ⟨512⟩],
   AVOp.flushGraphs [⟨256⟩] [⟨⟩],
   AVOp.encVideo (some ⟨⟩) false [],
   AVOp.encAudio (some ⟨1024⟩) true [⟨99⟩],
   AVOp.closeCtx [] []]

/-- C1: over any lifetime of `encode_video` / `encode_audio` calls on one
`AVContext` (with any graph rebuilds, flushes and close interleaved, and any
frames emitted by the filter graphs), the video PTS handed to the encoder are
exactly `1, 2, …, offset_video_pts` (each one the previous plus 1), every
audio PTS is the previous audio PTS plus that frame's `samples`, and — when
every audio frame has `samples ≥ 1` — both PTS sequences are strictly
increasing. -/
theorem C1_pts_strictly_increasing (ops : List AVOp)
    (h : ops.all opSamplesPos = true) :
    videoPts (AVCtx.run initCtx ops) =
      List.range' 1 (AVCtx.run initCtx ops).offset_video_pts ∧
    List.Chain' (· < ·) (videoPts (AVCtx.run initCtx ops)) ∧
    audioOk 0 (audioEntries (AVCtx.run initCtx ops)) = true ∧
    List.Chain' (· < ·) ((audioEntries (AVCtx.run initCtx ops)).map Prod.fst) := by
  obtain ⟨hinv, hpos⟩ := ctxInvPos_run ops initCtx ctxInv_init ctxPos_init h
  obtain ⟨hv, ha, _⟩ := hinv
  refine ⟨hv, ?_, ha, ?_⟩
  · rw [hv]
    exact (List.pairwise_lt_range' _ _).chain'
  · exact (audioOk_chain _ 0 ha hpos).1

/-- Witness for C1 at a concrete lifetime. -/
theorem C1_pts_strictly_increasing_witness :
    c1ops.all opSamplesPos = true ∧
    List.Chain' (· < ·) (videoPts (AVCtx.run initCtx c1ops)) ∧
    List.Chain' (· < ·) ((audioEntries (AVCtx.run initCtx c1ops)).map Prod.fst) := by
  have h := C1_pts_strictly_increasing c1ops (by decide)
  exact ⟨by decide, h.2.1, h.2.2.2⟩

/-- C7: `flush()` releases both graphs, drains each installed graph through
the per-stream encoder (advancing the offsets exactly by the drained
frames), appends only genuine frames — never `None` — to either encoder's
input, and leaves every other context field unchanged; only `close()` hands
`None` to the two encoders. -/
theorem C7_flush_drains_and_releases (s : AVCtx) (fa : List AFrame) (fv : List VFrame) :
    s.flush fa fv =
      { s with
          video_graph := false, audio_graph := false,
          offset_audio_pts := s.offset_audio_pts +
            (if s.audio_graph then sumSamples fa else 0),
          offset_video_pts := s.offset_video_pts +
            (if s.video_graph then fv.length else 0),
          audio_log := s.audio_log ++
            (if s.audio_graph then (audioDrain s.offset_audio_pts fa).map some else []),
          video_log := s.video_log ++
            (if s.video_graph then
              (List.range' (s.offset_video_pts + 1) fv.length).map some else []) } ∧
    ((s.flush fa fv).video_log.drop s.video_log.length).all Option.isSome = true ∧
    ((s.flush fa fv).audio_log.drop s.audio_log.length).all Option.isSome = true ∧
    s.close fa fv =
      { s.flush fa fv with
          audio_log := (s.flush fa fv).audio_log ++ [none],
          video_log := (s.flush fa fv).video_log ++ [none] } := by
  have hmain : s.flush fa fv =
      { s with
          video_graph := false, audio_graph := false,
          offset_audio_pts := s.offset_audio_pts +
            (if s.audio_graph then sumSamples fa else 0),
          offset_video_pts := s.offset_video_pts +
            (if s.video_graph then fv.length else 0),
          audio_log := s.audio_log ++
            (if s.audio_graph then (audioDrain s.offset_audio_pts fa).map some else []),
          video_log := s.video_log ++
            (if s.video_graph then
              (List.range' (s.offset_video_pts + 1) fv.length).map some else []) } := by
    rcases s with ⟨vg, ag, ovp, oap, vl, al⟩
    unfold AVCtx.flush AVCtx.encode_video AVCtx.encode_audio
    by_cases hga : ag <;> by_cases hgv : vg <;>
      simp [hga, hgv, audio_foldl_eq, video_foldl_eq]
  refine ⟨hmain, ?_, ?_, ?_⟩
  · rw [hmain]
    simp only [List.drop_left]
    by_cases hgv : s.video_graph <;>
      simp [hgv, List.all_map, List.all_eq_true] <;>
      intros <;> subst_vars <;> rfl
  · rw [hmain]
    simp only [List.drop_left]
    by_cases hga : s.audio_graph <;>
      simp [hga, List.all_map, List.all_eq_true] <;>
      intros <;> subst_vars <;> rfl
  · rfl

/-- C9: with no graph installed, `encode_video(frame, apply_filters=True)`
(and symmetrically `encode_audio`) falls through to the direct path: it is
identical to the `apply_filters=False` call, stamps the frame with the next
offset PTS and hands it to the encoder — not a no-op and no error. -/
theorem C9_no_graph_direct_encode (s : AVCtx) (hv : s.video_graph = false)
    (ha : s.audio_graph = false) (f : VFrame) (g : AFrame)
    (flv : List VFrame) (fla : List AFrame) :
    s.encode_video (some f) true flv = encode_video_inner s (some f) ∧
    s.encode_video (some f) true flv = s.encode_video (some f) false flv ∧
    (s.encode_video (some f) true flv).offset_video_pts = s.offset_video_pts + 1 ∧
    (s.encode_video (some f) true flv).video_log =
      s.video_log ++ [some (s.offset_video_pts + 1)] ∧
    s.encode_audio (some g) true fla = encode_audio_inner s (some g) ∧
    s.encode_audio (some g) true fla = s.encode_audio (some g) false fla ∧
    (s.encode_audio (some g) true fla).offset_audio_pts =
      s.offset_audio_pts + g.samples ∧
    (s.encode_audio (some g) true fla).audio_log =
      s.audio_log ++ [some (s.offset_audio_pts + g.samples, g.samples)] := by
  refine ⟨?_, ?_, ?_, ?_, ?_, ?_, ?_, ?_⟩ <;>
    simp [AVCtx.encode_video, AVCtx.encode_audio, hv, ha,
      encode_video_inner, encode_audio_inner]

/-- Witness for C9 on a fresh context. -/
theorem C9_no_graph_direct_encode_witness :
    initCtx.video_graph = false ∧ initCtx.audio_graph = false ∧
    (initCtx.encode_video (some ⟨⟩) true [⟨⟩]).offset_video_pts = 1 ∧
    (initCtx.encode_audio (some ⟨1024⟩) true [⟨512⟩]).offset_audio_pts = 1024 := by
  have h := C9_no_graph_direct_encode initCtx rfl rfl ⟨⟩ ⟨1024⟩ [⟨⟩] [⟨512⟩]
  exact ⟨rfl, rfl, h.2.2.1.trans rfl, h.2.2.2.2.2.2.1.trans rfl⟩

/-! Model of `AVStreamer._run_streaming` (streamer.py) and
`StreamerState.is_cached` (schemas.py).  Python object identity is modelled
by a numeric identity token carried on every frame; the two cached
placeholder frames of `StreamerState` are the objects with the state's two
identity tokens. -/

/-- A frame reaching the streaming loop: audio or video, with its object
identity token (and the audio sample count). -/
inductive SFrame where
  | audio (id : Nat) (samples : Nat)
  | video (id : Nat)
  deriving Repr, DecidableEq

/-- Identity token of a frame. -/
def frameId : SFrame → Nat
  | .audio i _ => i
  | .video i => i

/-- The identity-relevant part of `StreamerState`: the tokens of the cached
silent audio frame and cached placeholder video frame. -/
structure StreamerCache where
  audio_id : Nat
  video_id : Nat
  deriving Repr, DecidableEq

/-- `StreamerState.is_cached`: `frame is self.audio_frame or frame is
self.video_frame`. -/
def StreamerCache.is_cached (st : StreamerCache) (f : SFrame) : Bool :=
  frameId f == st.audio_id || frameId f == st.video_id

/-- The encoder invocation the loop body makes for one frame. -/
structure EncCall where
  isAudio : Bool
  apply_filters : Bool
  deriving Repr, DecidableEq

/-- One iteration of the loop body of `AVStreamer._run_streaming`: compute
`is_cached`, then encode with `apply_filters=not is_cached`.  Returns the new
context and a record of the call made. -/
def streamStep (st : StreamerCache) (c : AVCtx) (f : SFrame)
    (fla : List AFrame) (flv : List VFrame) : AVCtx × EncCall :=
  let cached := st.is_cached f
  match f with
  | .audio _ sm => (c.encode_audio (some ⟨sm⟩) (!cached) fla, ⟨true, !cached⟩)
  | .video _ => (c.encode_video (some ⟨⟩) (!cached) flv, ⟨false, !cached⟩)

/-- The streaming loop over a list of produced frames (each paired with the
frames its graph pull would emit), recording every encoder call. -/
def runStreaming (st : StreamerCache) (c : AVCtx) :
    List (SFrame × List AFrame × List VFrame) → AVCtx × List EncCall
  | [] => (c, [])
  | it :: rest =>
    let r := streamStep st c it.1 it.2.1 it.2.2
    let r2 := runStreaming st r.1 rest
    (r2.1, r.2 :: r2.2)

/-- The call the loop is expected to make for a frame: audio/video dispatch
with the graph bypassed exactly for cached frames. -/
def expectedCall (st : StreamerCache) (f : SFrame) : EncCall :=
  ⟨(match f with | .audio _ _ => true | .video _ => false), ! st.is_cached f⟩

/-- C8: in the streaming loop, every frame identity-equal to a cached
placeholder frame is encoded with `apply_filters=false`, and every other
frame with `apply_filters=true`: the recorded calls are exactly
`expectedCall` for each produced frame. -/
theorem C8_cached_frames_bypass_filters (st : StreamerCache) (c : AVCtx)
    (items : List (SFrame × List AFrame × List VFrame)) :
    (runStreaming st c items).2 = items.map (fun it => expectedCall st it.1) ∧
    (∀ f : SFrame, st.is_cached f = true ↔
      (frameId f = st.audio_id ∨ frameId f = st.video_id)) := by
  constructor
  · induction items generalizing c with
    | nil => rfl
    | cons it rest ih =>
      rcases it with ⟨f, fla, flv⟩
      cases f <;> simp [runStreaming, streamStep, expectedCall, ih]
  · intro f
    simp [StreamerCache.is_cached]

/-! Durations and A/V sync (constants.py, interfaces.py) and the placeholder
keep-alive generator `AVFrameGenerator._generate_placeholder_frames`
(streamer.py). -/

/-- `AUDIO_TIME_BASE = Fraction(1, AUDIO_RATE)` with `AUDIO_RATE = 48000`. -/
def AUDIO_TIME_BASE : ℚ := 1 / 48000

/-- `VIDEO_TIME_BASE = Fraction(1, VIDEO_RATE)` with
`VIDEO_RATE = Fraction(30000, 1001)`. -/
def VIDEO_TIME_BASE : ℚ := 1001 / 30000

/-- `SYNC_TOLERANCE = Fraction(50, 1000)`. -/
def SYNC_TOLERANCE : ℚ := 50 / 1000

/-- `AVContext.audio_duration`. -/
def AVCtx.audio_duration (s : AVCtx) : ℚ := s.offset_audio_pts * AUDIO_TIME_BASE

/-- `AVContext.video_duration`. -/
def AVCtx.video_duration (s : AVCtx) : ℚ := s.offset_video_pts * VIDEO_TIME_BASE

/-- `ContextDeliver.is_audio_video_synced`. -/
def AVCtx.is_audio_video_synced (s : AVCtx) : Prop :=
  |s.audio_duration - s.video_duration| ≤ SYNC_TOLERANCE

instance (s : AVCtx) : Decidable s.is_audio_video_synced := by
  unfold AVCtx.is_audio_video_synced
  infer_instance

lemma video_le_audio_iff (s : AVCtx) :
    (s.video_duration ≤ s.audio_duration) ↔
    (8008 * s.offset_video_pts ≤ 5 * s.offset_audio_pts) := by
  unfold AVCtx.video_duration AVCtx.audio_duration VIDEO_TIME_BASE AUDIO_TIME_BASE
  rw [← Nat.cast_le (α := ℚ)]
  push_cast
  constructor <;> intro h <;> linarith

lemma synced_iff (s : AVCtx) :
    s.is_audio_video_synced ↔
    |5 * (s.offset_audio_pts : ℤ) - 8008 * (s.offset_video_pts : ℤ)| ≤ 12000 := by
  unfold AVCtx.is_audio_video_synced AVCtx.audio_duration AVCtx.video_duration
    AUDIO_TIME_BASE VIDEO_TIME_BASE SYNC_TOLERANCE
  rw [← Int.cast_le (R := ℚ)]
  push_cast
  rw [abs_le, abs_le]
  constructor <;> intro h <;> exact ⟨by linarith [h.1, h.2], by linarith [h.1, h.2]⟩

/-- A frame yielded by the placeholder keep-alive: the (possibly
substituted) video frame or the (possibly substituted) audio frame. -/
inductive PFrame where
  | video
  | audio
  deriving Repr, DecidableEq

/-- The loop body's choice: the video frame when
`ctx.video_duration <= ctx.audio_duration` (ties go to video), else the
audio frame. -/
def chooseFrame (s : AVCtx) : PFrame :=
  if s.video_duration ≤ s.audio_duration then PFrame.video else PFrame.audio

/-- Effect of the streaming loop consuming one keep-alive frame: both kept
frames are cached (or the graphs are released), so the frame goes straight to
`_encode_video` / `_encode_audio`; `asm` is the audio frame's sample count
(1024 for the cached silence frame). -/
def applyPFrame (asm : Nat) (s : AVCtx) : PFrame → AVCtx
  | .video => encode_video_inner s (some ⟨⟩)
  | .audio => encode_audio_inner s (some ⟨asm⟩)

/-- `AVFrameGenerator._generate_placeholder_frames`: while running (fuel
`n` models the shutdown latch staying unset for `n` more iterations), yield
the frame chosen by `chooseFrame`, let the consumer `upd` advance the
context, and stop as soon as the context reports A/V sync. -/
def genPlaceholder (upd : AVCtx → PFrame → AVCtx) : Nat → AVCtx → List PFrame
  | 0, _ => []
  | n + 1, s =>
    let s2 := upd s (chooseFrame s)
    chooseFrame s ::
      (if s2.is_audio_video_synced then [] else genPlaceholder upd n s2)

/-- Context state after the consumer has processed a list of keep-alive
frames. -/
def applyAllP (upd : AVCtx → PFrame → AVCtx) (s : AVCtx) (fs : List PFrame) : AVCtx :=
  fs.foldl upd s

lemma applyAllP_nil (upd : AVCtx → PFrame → AVCtx) (s : AVCtx) :
    applyAllP upd s [] = s := rfl

lemma applyAllP_cons (upd : AVCtx → PFrame → AVCtx) (s : AVCtx) (f : PFrame)
    (fs : List PFrame) : applyAllP upd s (f :: fs) = applyAllP upd (upd s f) fs := rfl

/-- C6: the placeholder keep-alive yields, at every position, the video frame
exactly when the accumulated video duration is at most the accumulated audio
duration (ties go to video) and the audio frame otherwise; it keeps yielding
while the durations differ by more than the sync tolerance and the shutdown
latch is unset, and it terminates as soon as the context is A/V-synced after
a yield.  `upd` is the consumer's effect of encoding one yielded frame. -/
theorem C6_placeholder_keepalive (upd : AVCtx → PFrame → AVCtx) (n : Nat) (s : AVCtx) :
    (genPlaceholder upd n s).length ≤ n ∧
    (0 < n → genPlaceholder upd n s ≠ []) ∧
    (∀ k, (hk : k < (genPlaceholder upd n s).length) →
      (genPlaceholder upd n s).get ⟨k, hk⟩ =
        chooseFrame (applyAllP upd s ((genPlaceholder upd n s).take k))) ∧
    (∀ k, 0 < k → k < (genPlaceholder upd n s).length →
      ¬ (applyAllP upd s ((genPlaceholder upd n s).take k)).is_audio_video_synced) ∧
    ((genPlaceholder upd n s).length < n → 0 < (genPlaceholder upd n s).length →
      (applyAllP upd s (genPlaceholder upd n s)).is_audio_video_synced) := by
  induction n generalizing s with
  | zero =>
    refine ⟨Nat.le_refl 0, by omega, ?_, ?_, ?_⟩
    · intro k hk; simp [genPlaceholder] at hk
    · intro k hk1 hk2; simp [genPlaceholder] at hk2
    · intro h; simp [genPlaceholder] at h
  | succ n ih =>
    by_cases hs2 : (upd s (chooseFrame s)).is_audio_video_synced
    · have hfs : genPlaceholder upd (n + 1) s = [chooseFrame s] := by
        simp [genPlaceholder, hs2]
      rw [hfs]
      refine ⟨by simp, by simp, ?_, ?_, ?_⟩
      · intro k hk
        have hk0 : k = 0 := by simp at hk; omega
        subst hk0
        rfl
      · intro k hk1 hk2
        simp at hk2
        omega
      · intro _ _
        simpa [applyAllP] using hs2
    · have hfs : genPlaceholder upd (n + 1) s =
          chooseFrame s :: genPlaceholder upd n (upd s (chooseFrame s)) := by
        simp [genPlaceholder, hs2]
      obtain ⟨ihlen, ihne, ihsel, ihsync, ihterm⟩ := ih (upd s (chooseFrame s))
      rw [hfs]
      refine ⟨by simpa using ihlen, by simp, ?_, ?_, ?_⟩
      · intro k hk
        cases k with
        | zero => rfl
        | succ j =>
          simp only [List.length_cons] at hk
          have hj : j < (genPlaceholder upd n (upd s (chooseFrame s))).length := by omega
          have := ihsel j hj
          simpa [List.take_succ_cons, applyAllP_cons] using this
      · intro k hk1 hk2
        cases k with
        | zero => omega
        | succ j =>
          simp only [List.length_cons] at hk2
          cases Nat.eq_zero_or_pos j with
          | inl hj0 =>
            subst hj0
            simpa [List.take_succ_cons, applyAllP_cons, applyAllP] using hs2
          | inr hjpos =>
            have := ihsync j hjpos (by omega)
            simpa [List.take_succ_cons, applyAllP_cons] using this
      · intro hlen hpos
        simp only [List.length_cons] at hlen
        have hn : 0 < n := by omega
        have hne := ihne hn
        have := ihterm (by omega) (List.length_pos.2 hne)
        simpa [applyAllP_cons] using this

/-- Integer form of `chooseFrame` (used to evaluate concrete runs). -/
def chooseFrameZ (s : AVCtx) : PFrame :=
  if 8008 * s.offset_video_pts ≤ 5 * s.offset_audio_pts then PFrame.video
  else PFrame.audio

/-- Integer form of `AVCtx.is_audio_video_synced`. -/
def syncedZ (s : AVCtx) : Bool :=
  decide (|5 * (s.offset_audio_pts : ℤ) - 8008 * (s.offset_video_pts : ℤ)| ≤ 12000)

/-- Integer-arithmetic twin of `genPlaceholder (applyPFrame asm)`. -/
def genPlaceholderZ (asm : Nat) : Nat → AVCtx → List PFrame
  | 0, _ => []
  | n + 1, s =>
    let s2 := applyPFrame asm s (chooseFrameZ s)
    chooseFrameZ s :: (if syncedZ s2 then [] else genPlaceholderZ asm n s2)

lemma chooseFrame_eq_Z (s : AVCtx) : chooseFrame s = chooseFrameZ s := by
  unfold chooseFrame chooseFrameZ
  by_cases h : 8008 * s.offset_video_pts ≤ 5 * s.offset_audio_pts
  · rw [if_pos ((video_le_audio_iff s).2 h), if_pos h]
  · rw [if_neg (fun hc => h ((video_le_audio_iff s).1 hc)), if_neg h]

lemma synced_eq_Z (s : AVCtx) : s.is_audio_video_synced ↔ syncedZ s = true := by
  rw [synced_iff]
  simp [syncedZ]

lemma genPlaceholder_eq_Z (asm : Nat) : ∀ (n : Nat) (s : AVCtx),
    genPlaceholder (applyPFrame asm) n s = genPlaceholderZ asm n s := by
  intro n
  induction n with
  | zero => intro s; rfl
  | succ n ih =>
    intro s
    simp only [genPlaceholder, genPlaceholderZ]
    rw [chooseFrame_eq_Z]
    by_cases h : syncedZ (applyPFrame asm s (chooseFrameZ s)) = true
    · have h' := (synced_eq_Z (applyPFrame asm s (chooseFrameZ s))).2 h
      simp [h, h']
    · have h' : ¬ (applyPFrame asm s (chooseFrameZ s)).is_audio_video_synced :=
        fun hc => h ((synced_eq_Z _).1 hc)
      simp [h, h', ih]

/-- Witness for C6: on a fresh context with three iterations of fuel, the
keep-alive yields exactly one (video) frame and stops A/V-synced. -/
theorem C6_placeholder_keepalive_witness :
    genPlaceholder (applyPFrame 1024) 3 initCtx = [PFrame.video] ∧
    (applyAllP (applyPFrame 1024) initCtx
      (genPlaceholder (applyPFrame 1024) 3 initCtx)).is_audio_video_synced := by
  have hfs : genPlaceholder (applyPFrame 1024) 3 initCtx = [PFrame.video] := by
    rw [genPlaceholder_eq_Z]
    decide
  have h := C6_placeholder_keepalive (applyPFrame 1024) 3 initCtx
  exact ⟨hfs, h.2.2.2.2 (by rw [hfs]; decide) (by rw [hfs]; decide)⟩

/-! Model of `AVPlayer` (player.py).  Playlist elements are identity tokens
(`MediaAssetPaths` values are compared by object identity).  The Python
`cursor` property getter has a side effect — it resets the stored `_cursor`
to `None` whenever it is stale (out of range of the current playlist) — so it
is modelled as a state-returning function `cursorGet`. -/

/-- `StreamCursorMode` (core/enums.py). -/
inductive StreamCursorMode where
  | PLAY_AND_DELETE
  | PLAY_AND_STOP
  | LOOP_PLAYLIST
  deriving Repr, DecidableEq

/-- `StreamVisualMode` (core/enums.py). -/
inductive StreamVisualMode where
  | VIDEO_CONTENT
  | VIDEO_THUMBNAIL
  | VIDEO_PLACEHOLDER
  deriving Repr, DecidableEq

/-- Identity token of a `MediaAssetPaths` object. -/
abbrev Media := Nat

/-- State of an `AVPlayer`.  `rawCursor` is the stored `_cursor` field; it is
`none` or a (possibly stale) index. -/
structure AVPlayer where
  visual_mode : StreamVisualMode
  cursor_mode : StreamCursorMode
  playlist : List Media
  is_playing : Bool
  rawCursor : Option Nat
  deriving Repr, DecidableEq

/-- `AVPlayer.__init__`. -/
def AVPlayer.init (v : StreamVisualMode) (c : StreamCursorMode) : AVPlayer :=
  { visual_mode := v, cursor_mode := c, playlist := [], is_playing := true,
    rawCursor := none }

/-- The `cursor` property getter: returns the cursor when the stored value is
a valid index of the current playlist; otherwise stores and returns `None`. -/
def cursorGet (p : AVPlayer) : AVPlayer × Option Nat :=
  match p.rawCursor with
  | none => (p, none)
  | some c =>
    if p.playlist.length = 0 then ({ p with rawCursor := none }, none)
    else if c < p.playlist.length then (p, some c)
    else ({ p with rawCursor := none }, none)

/-- The `cursor` property setter: `None` or an empty playlist clear the
cursor; under `LOOP_PLAYLIST` the value is normalized modulo the playlist
size; otherwise out-of-range values become `None`. -/
def cursorSet (p : AVPlayer) (value : Option Int) : AVPlayer :=
  match value with
  | none => { p with rawCursor := none }
  | some v =>
    if p.playlist.length = 0 then { p with rawCursor := none }
    else if p.cursor_mode ≠ StreamCursorMode.LOOP_PLAYLIST then
      { p with rawCursor :=
        if 0 ≤ v ∧ v < (p.playlist.length : Int) then some v.toNat else none }
    else
      { p with rawCursor := some (v % (p.playlist.length : Int)).toNat }

/-- `AVPlayer.append`. -/
def AVPlayer.append (p : AVPlayer) (m : Media) : AVPlayer :=
  let p1 := { p with playlist := p.playlist ++ [m] }
  let r := cursorGet p1
  match r.2 with
  | none => cursorSet r.1 (some 0)
  | some _ => r.1

/-- `AVPlayer.remove`. -/
def AVPlayer.remove (p : AVPlayer) (index : Int) : AVPlayer :=
  if 0 ≤ index ∧ index < (p.playlist.length : Int) then
    let p1 := { p with playlist := p.playlist.eraseIdx index.toNat }
    let r := cursorGet p1
    match r.2 with
    | none => r.1
    | some cur =>
      if index < (cur : Int) then cursorSet r.1 (some ((cur : Int) - 1))
      else if index = (cur : Int) then
        cursorSet r.1 (some (min (cur : Int) ((r.1.playlist.length : Int) - 1)))
      else r.1
  else p

/-- `AVPlayer.select`. -/
def AVPlayer.select (p : AVPlayer) (index : Int) : AVPlayer :=
  let r := cursorGet p
  match r.2 with
  | some c =>
    if r.1.cursor_mode = StreamCursorMode.PLAY_AND_DELETE then
      let p2 := { r.1 with playlist := r.1.playlist.eraseIdx c }
      let step : Int := if index ≥ (c : Int) then -1 else 0
      if 0 ≤ index ∧ index < (p2.playlist.length : Int) then
        cursorSet p2 (some (index + step))
      else p2
    else
      if 0 ≤ index ∧ index < (r.1.playlist.length : Int) then
        cursorSet r.1 (some index)
      else r.1
  | none =>
    if 0 ≤ index ∧ index < (r.1.playlist.length : Int) then
      cursorSet r.1 (some index)
    else r.1

/-- `AVPlayer.move`. -/
def AVPlayer.move (p : AVPlayer) (src dst : Int) : AVPlayer :=
  if ¬ (0 ≤ src ∧ src < (p.playlist.length : Int)) ∨
     ¬ (0 ≤ dst ∧ dst < (p.playlist.length : Int)) then p
  else
    let r := cursorGet p
    match r.2 with
    | none => r.1
    | some cur =>
      let item := r.1.playlist.getD src.toNat 0
      let p2 := { r.1 with
        playlist := (r.1.playlist.eraseIdx src.toNat).insertIdx dst.toNat item }
      if src = (cur : Int) then cursorSet p2 (some dst)
      else if src < (cur : Int) ∧ (cur : Int) ≤ dst then
        cursorSet p2 (some ((cur : Int) - 1))
      else if dst ≤ (cur : Int) ∧ (cur : Int) < src then
        cursorSet p2 (some ((cur : Int) + 1))
      else p2

/-- `AVPlayer.next`: `select((self.cursor or 0) + step)`. -/
def AVPlayer.next (p : AVPlayer) (step : Int) : AVPlayer :=
  let r := cursorGet p
  r.1.select ((r.2.getD 0 : Nat) + step)

/-- `AVPlayer.prev`: `select((self.cursor or 0) - step)`. -/
def AVPlayer.prev (p : AVPlayer) (step : Int) : AVPlayer :=
  let r := cursorGet p
  r.1.select ((r.2.getD 0 : Nat) - step)

/-- `AVPlayer.clear`. -/
def AVPlayer.clear (p : AVPlayer) : AVPlayer :=
  { p with playlist := [], rawCursor := none }

/-- The `cursor_mode` property setter. -/
def AVPlayer.set_cursor_mode (p : AVPlayer) (m : StreamCursorMode) : AVPlayer :=
  { p with cursor_mode := m }

/-- The `visual_mode` property setter. -/
def AVPlayer.set_visual_mode (p : AVPlayer) (m : StreamVisualMode) : AVPlayer :=
  { p with visual_mode := m }

/-- The `is_playing` property setter. -/
def AVPlayer.set_is_playing (p : AVPlayer) (b : Bool) : AVPlayer :=
  { p with is_playing := b }

lemma cursorSet_fields (p : AVPlayer) (v : Option Int) :
    (cursorSet p v).playlist = p.playlist ∧
    (cursorSet p v).cursor_mode = p.cursor_mode ∧
    (cursorSet p v).visual_mode = p.visual_mode ∧
    (cursorSet p v).is_playing = p.is_playing := by
  unfold cursorSet
  rcases v with _ | v
  · exact ⟨rfl, rfl, rfl, rfl⟩
  · by_cases h : p.playlist.length = 0
    · simp [h]
    · by_cases hm : p.cursor_mode ≠ StreamCursorMode.LOOP_PLAYLIST <;> simp [h, hm]

lemma cursorGet_none (p : AVPlayer) (h : p.rawCursor = none) :
    cursorGet p = (p, none) := by
  unfold cursorGet
  rw [h]

lemma cursorGet_valid (p : AVPlayer) (c : Nat) (h : p.rawCursor = some c)
    (hc : c < p.playlist.length) : cursorGet p = (p, some c) := by
  unfold cursorGet
  rw [h]
  have h0 : p.playlist.length ≠ 0 := by omega
  simp [h0, hc]

lemma cursorGet_stale (p : AVPlayer) (c : Nat) (h : p.rawCursor = some c)
    (hc : p.playlist.length ≤ c) :
    cursorGet p = ({ p with rawCursor := none }, none) := by
  unfold cursorGet
  rw [h]
  by_cases h0 : p.playlist.length = 0
  · simp [h0]
  · have hlt : ¬ c < p.playlist.length := by omega
    simp [h0, hlt]

lemma cursorSet_some_inrange (p : AVPlayer) (v : Int) (h0 : 0 ≤ v)
    (h1 : v < (p.playlist.length : Int)) :
    (cursorSet p (some v)).rawCursor = some v.toNat := by
  simp only [cursorSet]
  have hn : p.playlist.length ≠ 0 := by omega
  rw [if_neg hn]
  by_cases hm : p.cursor_mode ≠ StreamCursorMode.LOOP_PLAYLIST
  · simp only [if_pos hm]
    simp [h0, h1]
  · simp only [if_neg hm]
    have hmod : v % (p.playlist.length : Int) = v := Int.emod_eq_of_lt h0 h1
    simp [hmod]

lemma cursorSet_some_outrange (p : AVPlayer) (v : Int)
    (hm : p.cursor_mode ≠ StreamCursorMode.LOOP_PLAYLIST)
    (h : ¬ (0 ≤ v ∧ v < (p.playlist.length : Int))) :
    (cursorSet p (some v)).rawCursor = none := by
  simp only [cursorSet]
  by_cases h0 : p.playlist.length = 0
  · simp [h0]
  · simp [h0, hm, h]

lemma cursorSet_loop (p : AVPlayer) (v : Int)
    (hm : p.cursor_mode = StreamCursorMode.LOOP_PLAYLIST)
    (h0 : p.playlist.length ≠ 0) :
    (cursorSet p (some v)).rawCursor = some (v % (p.playlist.length : Int)).toNat := by
  simp only [cursorSet]
  simp [h0, hm]

/-- C10: `clear()` empties the playlist and clears the cursor, leaving
`cursor_mode`, `visual_mode` and `is_playing` untouched. -/
theorem C10_clear_frame_effect (p : AVPlayer) :
    p.clear = { p with playlist := [], rawCursor := none } ∧
    p.clear.playlist = [] ∧
    p.clear.rawCursor = none ∧
    p.clear.cursor_mode = p.cursor_mode ∧
    p.clear.visual_mode = p.visual_mode ∧
    p.clear.is_playing = p.is_playing :=
  ⟨rfl, rfl, rfl, rfl, rfl, rfl⟩

/-- C2 counterexample: playlist `[0, 1]` with the cursor on the last element
(index 1); `remove(0)` deletes below the cursor, yet the post-state cursor is
`none`, not `old_cursor − 1 = 0`: the getter nulls the now-stale stored
cursor before the decrement branch can run. -/
theorem C2_remove_counterexample :
    (AVPlayer.remove
        ⟨StreamVisualMode.VIDEO_CONTENT, StreamCursorMode.PLAY_AND_STOP,
          [0, 1], true, some 1⟩ 0).playlist = [1] ∧
    (AVPlayer.remove
        ⟨StreamVisualMode.VIDEO_CONTENT, StreamCursorMode.PLAY_AND_STOP,
          [0, 1], true, some 1⟩ 0).rawCursor = none ∧
    (AVPlayer.remove
        ⟨StreamVisualMode.VIDEO_CONTENT, StreamCursorMode.PLAY_AND_STOP,
          [0, 1], true, some 1⟩ 0).rawCursor ≠ some 0 := by
  refine ⟨by decide, by decide, by decide⟩

/-- C2 amended: `remove(i)` with `i` in range deletes element `i`; then, if
the stored cursor is `none` or is not a valid index of the shrunken playlist
(in particular whenever it was at the last index), the cursor becomes
`none`; otherwise the cursor decrements by one when `i < cursor` and is
unchanged when `i ≥ cursor` (the `i == cursor` clamp writes back the same
value).  All other fields are unchanged. -/
theorem C2_remove_amended (p : AVPlayer) (i : Int)
    (h0 : 0 ≤ i) (h1 : i < (p.playlist.length : Int)) :
    (p.remove i).playlist = p.playlist.eraseIdx i.toNat ∧
    (p.remove i).rawCursor =
      (match p.rawCursor with
       | none => none
       | some c =>
         if p.playlist.length - 1 ≤ c then none
         else if i < (c : Int) then some (c - 1) else some c) ∧
    (p.remove i).cursor_mode = p.cursor_mode ∧
    (p.remove i).visual_mode = p.visual_mode ∧
    (p.remove i).is_playing = p.is_playing := by
  obtain ⟨vm, cm, pl, ip, raw⟩ := p
  dsimp only at h1 ⊢
  have hlen : i.toNat < pl.length := by omega
  have herase : (pl.eraseIdx i.toNat).length = pl.length - 1 :=
    List.length_eraseIdx_of_lt hlen
  unfold AVPlayer.remove
  rw [if_pos ⟨h0, h1⟩]
  rcases raw with _ | c
  · dsimp only [cursorGet]
    exact ⟨rfl, rfl, rfl, rfl, rfl⟩
  · dsimp only [cursorGet]
    by_cases h00 : (pl.eraseIdx i.toNat).length = 0
    · rw [if_pos h00]
      have hstale : pl.length - 1 ≤ c := by omega
      refine ⟨rfl, ?_, rfl, rfl, rfl⟩
      dsimp only
      rw [if_pos hstale]
    · rw [if_neg h00]
      by_cases hcv : c < (pl.eraseIdx i.toNat).length
      · rw [if_pos hcv]
        dsimp only
        have hstale : ¬ pl.length - 1 ≤ c := by omega
        by_cases hic : i < (c : Int)
        · rw [if_pos hic]
          have hset := cursorSet_some_inrange
            ⟨vm, cm, pl.eraseIdx i.toNat, ip, some c⟩ ((c : Int) - 1)
            (by omega) (by dsimp only; omega)
          obtain ⟨hpl, hcm, hvm, hip⟩ := cursorSet_fields
            ⟨vm, cm, pl.eraseIdx i.toNat, ip, some c⟩ (some ((c : Int) - 1))
          refine ⟨hpl, ?_, hcm, hvm, hip⟩
          rw [hset, if_neg hstale, if_pos hic]
          congr 1
          omega
        · rw [if_neg hic]
          by_cases hie : i = (c : Int)
          · rw [if_pos hie]
            have hmin : ((c : Int) ⊓ ((((pl.eraseIdx i.toNat)).length : Int) - 1)) =
                (c : Int) := by
              rw [herase]
              omega
            have hset := cursorSet_some_inrange
              ⟨vm, cm, pl.eraseIdx i.toNat, ip, some c⟩
              ((c : Int) ⊓ ((((pl.eraseIdx i.toNat)).length : Int) - 1))
              (by rw [hmin]; omega) (by dsimp only; rw [hmin]; omega)
            obtain ⟨hpl, hcm, hvm, hip⟩ := cursorSet_fields
              ⟨vm, cm, pl.eraseIdx i.toNat, ip, some c⟩
              (some ((c : Int) ⊓ ((((pl.eraseIdx i.toNat)).length : Int) - 1)))
            refine ⟨hpl, ?_, hcm, hvm, hip⟩
            rw [hset, if_neg hstale, if_neg hic, hmin]
            simp
          · rw [if_neg hie]
            refine ⟨rfl, ?_, rfl, rfl, rfl⟩
            dsimp only
            rw [if_neg hstale, if_neg hic]
      · rw [if_neg hcv]
        have hstale : pl.length - 1 ≤ c := by omega
        refine ⟨rfl, ?_, rfl, rfl, rfl⟩
        dsimp only
        rw [if_pos hstale]

/-- Witness for the amended C2: `[0,1,2]` with cursor 1, `remove(0)` →
cursor decrements to 0. -/
theorem C2_remove_amended_witness :
    (0 : Int) ≤ 0 ∧ (0 : Int) < (([0, 1, 2] : List Media).length : Int) ∧
    (AVPlayer.remove
        ⟨StreamVisualMode.VIDEO_CONTENT, StreamCursorMode.PLAY_AND_STOP,
          [0, 1, 2], true, some 1⟩ 0).playlist = [1, 2] ∧
    (AVPlayer.remove
        ⟨StreamVisualMode.VIDEO_CONTENT, StreamCursorMode.PLAY_AND_STOP,
          [0, 1, 2], true, some 1⟩ 0).rawCursor = some 0 := by
  have h := C2_remove_amended
    ⟨StreamVisualMode.VIDEO_CONTENT, StreamCursorMode.PLAY_AND_STOP,
      [0, 1, 2], true, some 1⟩ 0 (by decide) (by decide)
  exact ⟨by decide, by decide, h.1.trans (by decide), h.2.1.trans (by decide)⟩

/-- C3 counterexample: under `LOOP_PLAYLIST` with playlist `[0, 1]` and the
cursor on the last index, `next()` leaves the cursor at 1 instead of
wrapping to `(1 + 1) mod 2 = 0`: `select()` only writes the cursor when the
incremented index is already in range, so the modulo normalization of the
setter never executes. -/
theorem C3_next_no_wrap_counterexample :
    (AVPlayer.next
        ⟨StreamVisualMode.VIDEO_CONTENT, StreamCursorMode.LOOP_PLAYLIST,
          [0, 1], true, some 1⟩ 1).rawCursor = some 1 ∧
    (AVPlayer.next
        ⟨StreamVisualMode.VIDEO_CONTENT, StreamCursorMode.LOOP_PLAYLIST,
          [0, 1], true, some 1⟩ 1).rawCursor ≠ some ((1 + 1) % 2) := by
  refine ⟨by decide, by decide⟩

/-- C3 amended: under `LOOP_PLAYLIST`, every write that goes through the
cursor setter is normalized modulo the playlist size; but `next()` from a
valid cursor `c` only advances the cursor to `c + 1` when `c + 1` is still
in range — from the last index it leaves the cursor unchanged instead of
wrapping to 0, because `select()` guards the write with an in-range check on
the un-normalized index. -/
theorem C3_loop_cursor_amended (p : AVPlayer) (c : Nat)
    (hm : p.cursor_mode = StreamCursorMode.LOOP_PLAYLIST)
    (hraw : p.rawCursor = some c) (hc : c < p.playlist.length) :
    (∀ v : Int, (cursorSet p (some v)).rawCursor =
      some (v % (p.playlist.length : Int)).toNat) ∧
    (p.next 1).rawCursor =
      (if c + 1 < p.playlist.length then some (c + 1) else some c) ∧
    (p.next 1).playlist = p.playlist := by
  obtain ⟨vm, cm, pl, ip, raw⟩ := p
  dsimp only at hm hraw hc ⊢
  subst hm
  subst hraw
  have hnext : (AVPlayer.next ⟨vm, StreamCursorMode.LOOP_PLAYLIST, pl, ip, some c⟩ 1) =
      (if c + 1 < pl.length then
        cursorSet ⟨vm, StreamCursorMode.LOOP_PLAYLIST, pl, ip, some c⟩
          (some ((c : Int) + 1))
       else ⟨vm, StreamCursorMode.LOOP_PLAYLIST, pl, ip, some c⟩) := by
    unfold AVPlayer.next
    rw [cursorGet_valid ⟨vm, StreamCursorMode.LOOP_PLAYLIST, pl, ip, some c⟩ c rfl hc]
    dsimp only [Option.getD]
    unfold AVPlayer.select
    rw [cursorGet_valid ⟨vm, StreamCursorMode.LOOP_PLAYLIST, pl, ip, some c⟩ c rfl hc]
    dsimp only
    rw [if_neg (by decide :
      ¬ (StreamCursorMode.LOOP_PLAYLIST = StreamCursorMode.PLAY_AND_DELETE))]
    by_cases hin : c + 1 < pl.length
    · rw [if_pos ⟨by omega, by omega⟩, if_pos hin]
    · have hcond : ¬ ((0 : Int) ≤ (c : Int) + 1 ∧
          ((c : Int) + 1) < (pl.length : Int)) := by
        intro hcontra
        exact hin (by omega)
      rw [if_neg hcond, if_neg hin]
  refine ⟨?_, ?_, ?_⟩
  · intro v
    exact cursorSet_loop ⟨vm, StreamCursorMode.LOOP_PLAYLIST, pl, ip, some c⟩ v rfl
      (show pl.length ≠ 0 by omega)
  · rw [hnext]
    by_cases hin : c + 1 < pl.length
    · rw [if_pos hin, if_pos hin]
      rw [cursorSet_loop ⟨vm, StreamCursorMode.LOOP_PLAYLIST, pl, ip, some c⟩
        ((c : Int) + 1) rfl (show pl.length ≠ 0 by omega)]
      have hmod : ((c : Int) + 1) % (pl.length : Int) = (c : Int) + 1 :=
        Int.emod_eq_of_lt (by omega) (by omega)
      dsimp only
      rw [hmod]
      congr 1
    · rw [if_neg hin, if_neg hin]
  · rw [hnext]
    by_cases hin : c + 1 < pl.length
    · rw [if_pos hin]
      exact (cursorSet_fields _ _).1
    · rw [if_neg hin]

/-- Witness for the amended C3: `[5, 6, 7]` under `LOOP_PLAYLIST` with
cursor 0; `next()` advances the cursor to 1. -/
theorem C3_loop_cursor_amended_witness :
    (AVPlayer.next
        ⟨StreamVisualMode.VIDEO_CONTENT, StreamCursorMode.LOOP_PLAYLIST,
          [5, 6, 7], true, some 0⟩ 1).rawCursor = some 1 ∧
    (cursorSet
        ⟨StreamVisualMode.VIDEO_CONTENT, StreamCursorMode.LOOP_PLAYLIST,
          [5, 6, 7], true, some 0⟩ (some 7)).rawCursor = some 1 := by
  have h := C3_loop_cursor_amended
    ⟨StreamVisualMode.VIDEO_CONTENT, StreamCursorMode.LOOP_PLAYLIST,
      [5, 6, 7], true, some 0⟩ 0 rfl rfl (by decide)
  exact ⟨(h.2.1).trans (by decide), (h.1 7).trans (by decide)⟩

/-- C4 counterexample: under `PLAY_AND_DELETE` with playlist `[0, 1, 2]` and
cursor 0, `select(2)` deletes the current element and renumbers `i = 2` to 1,
which is in range of the shrunken playlist `[1, 2]` — yet the cursor stays 0:
the code checks the un-renumbered index `2` against the new length 2 and
skips the write. -/
theorem C4_select_delete_counterexample :
    (AVPlayer.select
        ⟨StreamVisualMode.VIDEO_CONTENT, StreamCursorMode.PLAY_AND_DELETE,
          [0, 1, 2], true, some 0⟩ 2).playlist = [1, 2] ∧
    (AVPlayer.select
        ⟨StreamVisualMode.VIDEO_CONTENT, StreamCursorMode.PLAY_AND_DELETE,
          [0, 1, 2], true, some 0⟩ 2).rawCursor = some 0 ∧
    (AVPlayer.select
        ⟨StreamVisualMode.VIDEO_CONTENT, StreamCursorMode.PLAY_AND_DELETE,
          [0, 1, 2], true, some 0⟩ 2).rawCursor ≠ some 1 := by
  refine ⟨by decide, by decide, by decide⟩

/-- C4 amended: `select(i)` under `PLAY_AND_DELETE` with a current element at
`c` deletes the element at `c` first and renumbers `i` by −1 when `i ≥ c`;
but the cursor is written exactly when the ORIGINAL index `i` is in range of
the shrunken playlist (the renumbered index is handed to the setter, which
coerces a negative value to `none`); when the original `i` is out of range
the stored cursor keeps its pre-call value `c`. -/
theorem C4_select_delete_amended (p : AVPlayer) (i : Int) (c : Nat)
    (hm : p.cursor_mode = StreamCursorMode.PLAY_AND_DELETE)
    (hraw : p.rawCursor = some c) (hc : c < p.playlist.length) :
    (p.select i).playlist = p.playlist.eraseIdx c ∧
    (p.select i).rawCursor =
      (if 0 ≤ i ∧ i < (p.playlist.length : Int) - 1 then
        (if 0 ≤ i + (if (c : Int) ≤ i then -1 else 0) then
          some ((i + (if (c : Int) ≤ i then -1 else 0)).toNat)
         else none)
       else some c) := by
  obtain ⟨vm, cm, pl, ip, raw⟩ := p
  dsimp only at hm hraw hc ⊢
  subst hm
  subst hraw
  have herase : (pl.eraseIdx c).length = pl.length - 1 :=
    List.length_eraseIdx_of_lt hc
  unfold AVPlayer.select
  rw [cursorGet_valid ⟨vm, StreamCursorMode.PLAY_AND_DELETE, pl, ip, some c⟩ c rfl hc]
  dsimp only
  rw [if_pos rfl]
  by_cases hin : 0 ≤ i ∧ i < (pl.length : Int) - 1
  · have hin2 : 0 ≤ i ∧ i < (((pl.eraseIdx c).length : Nat) : Int) := by
      constructor
      · exact hin.1
      · rw [herase]
        omega
    rw [if_pos hin2, if_pos hin]
    refine ⟨(cursorSet_fields _ _).1, ?_⟩
    by_cases hge : (c : Int) ≤ i
    · have hstep : (if i ≥ (c : Int) then (-1 : Int) else 0) = -1 := if_pos hge
      rw [hstep]
      by_cases hnn : 0 ≤ i + (-1 : Int)
      · rw [cursorSet_some_inrange _ _ hnn (by dsimp only; rw [herase]; omega)]
        rw [if_pos hnn]
      · rw [cursorSet_some_outrange _ _ (by dsimp only; decide)
          (fun hcon => hnn hcon.1)]
        rw [if_neg hnn]
    · have hstep : (if i ≥ (c : Int) then (-1 : Int) else 0) = 0 := if_neg hge
      rw [hstep]
      have hnn : 0 ≤ i + (0 : Int) := by omega
      rw [cursorSet_some_inrange _ _ hnn (by dsimp only; rw [herase]; omega)]
      rw [if_pos hnn]
  · have hin2 : ¬ (0 ≤ i ∧ i < (((pl.eraseIdx c).length : Nat) : Int)) := by
      rw [herase]
      intro hcon
      exact hin ⟨hcon.1, by omega⟩
    rw [if_neg hin2, if_neg hin]
    exact ⟨rfl, rfl⟩

/-- Witness for the amended C4: `[4, 5, 6]` under `PLAY_AND_DELETE` with
cursor 1; `select(0)` deletes element 1 and moves the cursor to 0. -/
theorem C4_select_delete_amended_witness :
    (AVPlayer.select
        ⟨StreamVisualMode.VIDEO_CONTENT, StreamCursorMode.PLAY_AND_DELETE,
          [4, 5, 6], true, some 1⟩ 0).playlist = [4, 6] ∧
    (AVPlayer.select
        ⟨StreamVisualMode.VIDEO_CONTENT, StreamCursorMode.PLAY_AND_DELETE,
          [4, 5, 6], true, some 1⟩ 0).rawCursor = some 0 := by
  have h := C4_select_delete_amended
    ⟨StreamVisualMode.VIDEO_CONTENT, StreamCursorMode.PLAY_AND_DELETE,
      [4, 5, 6], true, some 1⟩ 0 1 rfl rfl (by decide)
  exact ⟨h.1.trans (by decide), h.2.trans (by decide)⟩

/-- One call of the public `AVPlayer` interface. -/
inductive PlayerOp where
  | append (m : Media)
  | remove (i : Int)
  | select (i : Int)
  | move (src dst : Int)
  | next (step : Int)
  | prev (step : Int)
  | clear
  | setCursorMode (m : StreamCursorMode)
  | setVisualMode (m : StreamVisualMode)
  | setPlaying (b : Bool)
  deriving Repr, DecidableEq

/-- Dispatch one public operation. -/
def applyOp (p : AVPlayer) : PlayerOp → AVPlayer
  | .append m => p.append m
  | .remove i => p.remove i
  | .select i => p.select i
  | .move s d => p.move s d
  | .next st => p.next st
  | .prev st => p.prev st
  | .clear => p.clear
  | .setCursorMode m => p.set_cursor_mode m
  | .setVisualMode m => p.set_visual_mode m
  | .setPlaying b => p.set_is_playing b

/-- Run a sequence of public operations. -/
def runOpsP (p : AVPlayer) (ops : List PlayerOp) : AVPlayer := ops.foldl applyOp p

/-- Operations that do not break the LOOP-mode cursor invariant: everything
except `remove` and `cursor_mode` writes. -/
def opKeepsLoop : PlayerOp → Bool
  | .remove _ => false
  | .setCursorMode _ => false
  | _ => true

/-- The LOOP-mode invariant: the mode is `LOOP_PLAYLIST`, a cleared cursor
only occurs with an empty playlist, and a stored cursor is a valid index. -/
def LoopInv (p : AVPlayer) : Prop :=
  p.cursor_mode = StreamCursorMode.LOOP_PLAYLIST ∧
  (p.rawCursor = none → p.playlist = []) ∧
  (∀ c, p.rawCursor = some c → c < p.playlist.length)

lemma loopInv_cursorSet (p : AVPlayer)
    (hm : p.cursor_mode = StreamCursorMode.LOOP_PLAYLIST)
    (h0 : p.playlist.length ≠ 0) (v : Int) : LoopInv (cursorSet p (some v)) := by
  obtain ⟨hpl, hcm, _, _⟩ := cursorSet_fields p (some v)
  refine ⟨by rw [hcm, hm], ?_, ?_⟩
  · intro hnone
    rw [cursorSet_loop p v hm h0] at hnone
    cases hnone
  · intro c' hc'
    rw [cursorSet_loop p v hm h0] at hc'
    injection hc' with h'
    subst h'
    rw [hpl]
    have h1 : (0 : Int) ≤ v % (p.playlist.length : Int) :=
      Int.emod_nonneg v (by exact_mod_cast h0)
    have h2 : v % (p.playlist.length : Int) < (p.playlist.length : Int) :=
      Int.emod_lt_of_pos v (by omega)
    omega

lemma loopInv_select (p : AVPlayer) (h : LoopInv p) (i : Int) :
    LoopInv (p.select i) := by
  obtain ⟨vm, cm, pl, ip, raw⟩ := p
  obtain ⟨hm, hn, hs⟩ := h
  dsimp only at hm hn hs ⊢
  subst hm
  rcases raw with _ | c
  · have hpl : pl = [] := hn rfl
    subst hpl
    simp only [AVPlayer.select, cursorGet]
    split
    · rename_i hcond
      exfalso
      simp at hcond
      omega
    · exact ⟨rfl, fun _ => rfl, fun c hc => by cases hc⟩
  · have hc := hs c rfl
    simp only [AVPlayer.select, cursorGet]
    rw [if_neg (show ¬ pl.length = 0 by omega), if_pos hc]
    dsimp only
    rw [if_neg (by decide :
      ¬ (StreamCursorMode.LOOP_PLAYLIST = StreamCursorMode.PLAY_AND_DELETE))]
    split
    · exact loopInv_cursorSet ⟨vm, StreamCursorMode.LOOP_PLAYLIST, pl, ip, some c⟩ rfl
        (show pl.length ≠ 0 by omega) i
    · refine ⟨rfl, ?_, ?_⟩
      · intro hno
        cases hno
      · intro c' hc'
        injection hc' with h'
        exact h' ▸ hc

lemma loopInv_append (p : AVPlayer) (h : LoopInv p) (m : Media) :
    LoopInv (p.append m) := by
  obtain ⟨vm, cm, pl, ip, raw⟩ := p
  obtain ⟨hm, hn, hs⟩ := h
  dsimp only at hm hn hs ⊢
  subst hm
  rcases raw with _ | c
  · simp only [AVPlayer.append, cursorGet]
    exact loopInv_cursorSet ⟨vm, StreamCursorMode.LOOP_PLAYLIST, pl ++ [m], ip, none⟩
      rfl (by simp) 0
  · have hc := hs c rfl
    simp only [AVPlayer.append, cursorGet]
    rw [if_neg (show ¬ (pl ++ [m]).length = 0 by simp),
      if_pos (show c < (pl ++ [m]).length by simp; omega)]
    refine ⟨rfl, ?_, ?_⟩
    · intro hno
      cases hno
    · intro c' hc'
      injection hc' with h'
      subst h'
      simp
      omega

lemma loopInv_next (p : AVPlayer) (h : LoopInv p) (st : Int) :
    LoopInv (p.next st) := by
  unfold AVPlayer.next
  rcases hraw : p.rawCursor with _ | c
  · rw [cursorGet_none p hraw]
    exact loopInv_select p h _
  · rw [cursorGet_valid p c hraw (h.2.2 c hraw)]
    exact loopInv_select p h _

lemma loopInv_prev (p : AVPlayer) (h : LoopInv p) (st : Int) :
    LoopInv (p.prev st) := by
  unfold AVPlayer.prev
  rcases hraw : p.rawCursor with _ | c
  · rw [cursorGet_none p hraw]
    exact loopInv_select p h _
  · rw [cursorGet_valid p c hraw (h.2.2 c hraw)]
    exact loopInv_select p h _

lemma loopInv_move (p : AVPlayer) (h : LoopInv p) (src dst : Int) :
    LoopInv (p.move src dst) := by
  obtain ⟨vm, cm, pl, ip, raw⟩ := p
  obtain ⟨hm, hn, hs⟩ := h
  dsimp only at hm hn hs ⊢
  subst hm
  unfold AVPlayer.move
  split
  · exact ⟨rfl, hn, hs⟩
  · rename_i hval
    push_neg at hval
    dsimp only at hval
    rcases raw with _ | c
    · have hpl : pl = [] := hn rfl
      subst hpl
      exfalso
      simp at hval
      omega
    · have hc := hs c rfl
      rw [cursorGet_valid ⟨vm, StreamCursorMode.LOOP_PLAYLIST, pl, ip, some c⟩ c rfl hc]
      dsimp only
      have h1 : src.toNat < pl.length := by omega
      have h2 : (pl.eraseIdx src.toNat).length = pl.length - 1 :=
        List.length_eraseIdx_of_lt h1
      have h3 : dst.toNat ≤ (pl.eraseIdx src.toNat).length := by omega
      have hlen : ((pl.eraseIdx src.toNat).insertIdx dst.toNat
          (pl.getD src.toNat 0)).length = pl.length := by
        rw [List.length_insertIdx _ _ h3, h2]
        omega
      have hne2 : ((pl.eraseIdx src.toNat).insertIdx dst.toNat
          (pl.getD src.toNat 0)).length ≠ 0 := by
        rw [hlen]
        omega
      split
      · exact loopInv_cursorSet _ rfl hne2 _
      · split
        · exact loopInv_cursorSet _ rfl hne2 _
        · split
          · exact loopInv_cursorSet _ rfl hne2 _
          · refine ⟨rfl, ?_, ?_⟩
            · intro hno
              cases hno
            · intro c' hc'
              injection hc' with h'
              subst h'
              rw [hlen]
              exact hc

lemma loopInv_applyOp (p : AVPlayer) (op : PlayerOp) (h : LoopInv p)
    (hop : opKeepsLoop op = true) : LoopInv (applyOp p op) := by
  cases op with
  | append m => exact loopInv_append p h m
  | remove i => simp [opKeepsLoop] at hop
  | select i => exact loopInv_select p h i
  | move s d => exact loopInv_move p h s d
  | next st => exact loopInv_next p h st
  | prev st => exact loopInv_prev p h st
  | clear => exact ⟨h.1, fun _ => rfl, fun c hc => by cases hc⟩
  | setCursorMode m => simp [opKeepsLoop] at hop
  | setVisualMode m => exact ⟨h.1, h.2.1, h.2.2⟩
  | setPlaying b => exact ⟨h.1, h.2.1, h.2.2⟩

lemma loopInv_runOps (ops : List PlayerOp) : ∀ p : AVPlayer, LoopInv p →
    ops.all opKeepsLoop = true → LoopInv (runOpsP p ops) := by
  induction ops with
  | nil => intro p h _; exact h
  | cons op rest ih =>
    intro p h hall
    simp only [List.all_cons, Bool.and_eq_true] at hall
    have := ih (applyOp p op) (loopInv_applyOp p op h hall.1) hall.2
    simpa [runOpsP, List.foldl_cons] using this

/-- C5 counterexample: starting in `LOOP_PLAYLIST`, the reachable sequence
`append 0; append 1; select 1; remove 0` leaves a non-empty playlist whose
cursor reads `none`: removing below a cursor that sat on the last index
lets the getter null the stale cursor. -/
theorem C5_loop_cursor_counterexample :
    (runOpsP (AVPlayer.init StreamVisualMode.VIDEO_CONTENT
        StreamCursorMode.LOOP_PLAYLIST)
      [PlayerOp.append 0, PlayerOp.append 1, PlayerOp.select 1,
       PlayerOp.remove 0]).cursor_mode = StreamCursorMode.LOOP_PLAYLIST ∧
    (runOpsP (AVPlayer.init StreamVisualMode.VIDEO_CONTENT
        StreamCursorMode.LOOP_PLAYLIST)
      [PlayerOp.append 0, PlayerOp.append 1, PlayerOp.select 1,
       PlayerOp.remove 0]).playlist = [1] ∧
    (runOpsP (AVPlayer.init StreamVisualMode.VIDEO_CONTENT
        StreamCursorMode.LOOP_PLAYLIST)
      [PlayerOp.append 0, PlayerOp.append 1, PlayerOp.select 1,
       PlayerOp.remove 0]).rawCursor = none ∧
    (cursorGet (runOpsP (AVPlayer.init StreamVisualMode.VIDEO_CONTENT
        StreamCursorMode.LOOP_PLAYLIST)
      [PlayerOp.append 0, PlayerOp.append 1, PlayerOp.select 1,
       PlayerOp.remove 0])).2 = none := by
  refine ⟨by decide, by decide, by decide, by decide⟩

/-- C5 amended: in every state reachable from a player constructed in
`LOOP_PLAYLIST` mode by `append`, `select`, `move`, `next`, `prev`, `clear`
and `visual_mode` / `is_playing` writes — that is, excluding `remove` and
`cursor_mode` writes, either of which can null the cursor of a non-empty
playlist — a non-empty playlist implies the cursor is a valid index, never
`none`. -/
theorem C5_loop_cursor_invariant_amended (v : StreamVisualMode)
    (ops : List PlayerOp) (h : ops.all opKeepsLoop = true)
    (hne : (runOpsP (AVPlayer.init v StreamCursorMode.LOOP_PLAYLIST) ops).playlist ≠ []) :
    ∃ c, (runOpsP (AVPlayer.init v StreamCursorMode.LOOP_PLAYLIST) ops).rawCursor
        = some c ∧
      c < (runOpsP (AVPlayer.init v StreamCursorMode.LOOP_PLAYLIST) ops).playlist.length ∧
      (cursorGet (runOpsP (AVPlayer.init v StreamCursorMode.LOOP_PLAYLIST) ops)).2
        = some c := by
  have hinv := loopInv_runOps ops (AVPlayer.init v StreamCursorMode.LOOP_PLAYLIST)
    ⟨rfl, fun _ => rfl, fun c hc => by cases hc⟩ h
  obtain ⟨hm, hn, hs⟩ := hinv
  rcases hraw : (runOpsP (AVPlayer.init v StreamCursorMode.LOOP_PLAYLIST) ops).rawCursor
    with _ | c
  · exact absurd (hn hraw) hne
  · have hc := hs c hraw
    refine ⟨c, rfl, hc, ?_⟩
    rw [cursorGet_valid _ c hraw hc]

/-- Witness for the amended C5: a single `append` under `LOOP_PLAYLIST`
yields a valid cursor. -/
theorem C5_loop_cursor_invariant_amended_witness :
    ([PlayerOp.append 7].all opKeepsLoop = true) ∧
    ∃ c, (runOpsP (AVPlayer.init StreamVisualMode.VIDEO_CONTENT
          StreamCursorMode.LOOP_PLAYLIST) [PlayerOp.append 7]).rawCursor = some c ∧
      c < (runOpsP (AVPlayer.init StreamVisualMode.VIDEO_CONTENT
          StreamCursorMode.LOOP_PLAYLIST) [PlayerOp.append 7]).playlist.length ∧
      (cursorGet (runOpsP (AVPlayer.init StreamVisualMode.VIDEO_CONTENT
          StreamCursorMode.LOOP_PLAYLIST) [PlayerOp.append 7])).2 = some c :=
  ⟨by decide, C5_loop_cursor_invariant_amended StreamVisualMode.VIDEO_CONTENT
    [PlayerOp.append 7] (by decide) (by decide)⟩

end TgStreamer
